import Mathlib

/-
Formal model of the Healthcare-Management Django application
(src/core/models.py, src/core/forms.py, src/core/views.py, src/core/signals.py).

Conventions of the shallow embedding:
* `TimeField` values are minutes since midnight (`Nat`); Python `time` objects
  compare lexicographically on (hour, minute, second, microsecond), which is
  order-isomorphic to the minute count for the minute-granular times this
  application handles.
* `DateField` values are proleptic Gregorian ordinals (`Nat`), exactly
  Python's `date.toordinal()`; ordinal 1 is a Monday, so Python's
  `date.weekday()` (Monday = 0) is `(ordinal + 6) % 7`.
* Foreign keys are stored as row ids; where the source navigates a foreign
  key chain (`appointment.doctor.user`), the joined user id is carried as a
  denormalised column (`doctor_user`, `patient_user`) on the row.
* `timezone.now()` is modelled by an explicit clock value passed in.
-/

namespace Healthcare

/-- Python `date.weekday()` on a proleptic-Gregorian ordinal: Monday = 0. -/
def weekday (ordinal : Nat) : Nat := (ordinal + 6) % 7

/-- Clock value standing for `timezone.now()`: today's date ordinal and the
current time in minutes since midnight. -/
structure NowClock where
  date : Nat
  time : Nat
deriving DecidableEq, Repr

/-- `Appointment.STATUS_CHOICES` from core/models.py. -/
inductive Status where
  | pending
  | confirmed
  | cancelled
  | completed
  | rescheduled
deriving DecidableEq, Repr

/-- Row of the `Doctor` model (core/models.py). Columns not used by any view
modelled here (specialisations, fee, licence, address, ...) are elided.
`user` is the id of the owning account; `available_from` / `available_to`
are the working-hours columns validated by `Doctor.clean`. -/
structure Doctor where
  id : Nat
  user : Nat
  is_active : Bool
  available_from : Nat
  available_to : Nat
deriving DecidableEq, Repr

/-- Row of the `Appointment` model (core/models.py). `patient_user` and
`doctor_user` are the user ids reached through the `patient`/`doctor`
foreign keys. Columns irrelevant to the verified behaviour
(payment_status, meeting_link, notes, reminder and cancellation fields,
auto timestamps) are elided. -/
structure Appointment where
  id : Nat
  patient : Nat
  doctor : Nat
  patient_user : Nat
  doctor_user : Nat
  appointment_number : String
  appointment_date : Nat
  appointment_time : Nat
  end_time : Option Nat
  reason : String
  status : Status
deriving DecidableEq, Repr

/-- Row of the `DoctorAvailability` model (core/models.py). -/
structure DoctorAvailability where
  doctor : Nat
  day_of_week : Nat
  start_time : Nat
  end_time : Nat
  is_available : Bool
  recurring : Bool
  valid_from : Nat
  valid_to : Option Nat
deriving DecidableEq, Repr

/-- The ORM filter of `get_available_time_slots` (core/views.py lines
840-842): availabilities of this doctor for this weekday, marked available,
with `valid_from <= date` and (`valid_to >= date` or `valid_to` null). -/
def availabilityQualifies (doctorId date : Nat) (av : DoctorAvailability) : Bool :=
  av.doctor == doctorId && av.day_of_week == weekday date && av.is_available &&
    (match av.valid_to with
     | some vt => date ≤ vt
     | none => true) &&
    av.valid_from ≤ date

/-- The booked-slot existence check of `get_available_time_slots`
(core/views.py lines 858-861): an appointment of this doctor at this date
and time in status pending, confirmed or rescheduled. -/
def isBooked (apps : List Appointment) (doctorId date t : Nat) : Bool :=
  apps.any fun a =>
    a.doctor == doctorId && a.appointment_date == date && a.appointment_time == t &&
      (a.status == Status.pending || a.status == Status.confirmed ||
        a.status == Status.rescheduled)

/-- The while loop of `get_available_time_slots` (core/views.py lines
849-869): step `cur` from the window start in 30-minute increments while
below the window end; skip slots before the current time when the date is
today, skip booked slots, collect the rest. -/
def windowSlots (apps : List Appointment) (doctorId date : Nat) (now : NowClock)
    (cur endT : Nat) : List Nat :=
  if _h : cur < endT then
    if date == now.date && cur < now.time then
      windowSlots apps doctorId date now (cur + 30) endT
    else if isBooked apps doctorId date cur then
      windowSlots apps doctorId date now (cur + 30) endT
    else
      cur :: windowSlots apps doctorId date now (cur + 30) endT
  else
    []
termination_by endT - cur
decreasing_by all_goals omega

/-- Deduplication keyed on the slot value, keeping the first occurrence:
the effect of the Python dict comprehension `\x7bs['start']: s for s in slots\x7d`
(insertion order of first key occurrence; the value is determined by the
key). `seen` accumulates keys already emitted. -/
def dedupFirst (seen : List Nat) : List Nat → List Nat
  | [] => []
  | x :: xs => if x ∈ seen then dedupFirst seen xs else x :: dedupFirst (x :: seen) xs

/-- Insert `x` into `l` before the first element it compares at or below:
one step of the insertion sort modelling Python's `sorted`. -/
def insertBy {α : Type} (le : α → α → Bool) (x : α) : List α → List α
  | [] => [x]
  | y :: ys => if le x y then x :: y :: ys else y :: insertBy le x ys

/-- Insertion sort modelling Python's `sorted(...)`; the outputs proved
about here depend only on the comparison, not on the sorting algorithm. -/
def sortBy {α : Type} (le : α → α → Bool) : List α → List α
  | [] => []
  | x :: xs => insertBy le x (sortBy le xs)

/-- The slot aggregation of `get_available_time_slots` (core/views.py lines
844-872): concatenate the slots of every qualifying availability window,
then deduplicate (the dict comprehension keyed by slot start) and sort by
slot start. Only the start minute of each slot dict is modelled; the
`formatted` entry is a second rendering of the same time. -/
def computeSlots (avs : List DoctorAvailability) (apps : List Appointment)
    (doctorId date : Nat) (now : NowClock) : List Nat :=
  let slots := (avs.filter (availabilityQualifies doctorId date)).flatMap
    fun av => windowSlots apps doctorId date now av.start_time av.end_time
  sortBy (fun a b => decide (a ≤ b)) (dedupFirst [] slots)

/-- `Doctor.objects.get(id=doctor_id, is_active=True)` (core/views.py line
836); `none` models the `Doctor.DoesNotExist` branch. Primary keys are
unique, so at most one row matches. -/
def findActiveDoctor (doctors : List Doctor) (doctorId : Nat) : Option Doctor :=
  doctors.find? fun d => d.id == doctorId && d.is_active

/-- Responses of the available-time-slots endpoint. -/
inductive SlotsResponse where
  | ok (slots : List Nat)
  | badRequest
  | notFound
deriving DecidableEq, Repr

/-- `get_available_time_slots` (core/views.py lines 827-879). Missing
`doctor_id` or `date` parameters give HTTP 400; an unknown or inactive
doctor gives HTTP 404; otherwise the JSON slot list is returned. -/
def get_available_time_slots (doctors : List Doctor) (avs : List DoctorAvailability)
    (apps : List Appointment) (doctorId : Option Nat) (dateParam : Option Nat)
    (now : NowClock) : SlotsResponse :=
  match doctorId, dateParam with
  | none, _ => SlotsResponse.badRequest
  | _, none => SlotsResponse.badRequest
  | some did, some date =>
    match findActiveDoctor doctors did with
    | none => SlotsResponse.notFound
    | some doctor => SlotsResponse.ok (computeSlots avs apps doctor.id date now)

/-- Two appointment rows collide on the `unique_together` key
`('doctor', 'appointment_date', 'appointment_time')` of `Appointment.Meta`
(core/models.py line 228). -/
def sameSlotKey (a b : Appointment) : Prop :=
  a.doctor = b.doctor ∧ a.appointment_date = b.appointment_date ∧
    a.appointment_time = b.appointment_time

instance (a b : Appointment) : Decidable (sameSlotKey a b) := by
  unfold sameSlotKey; infer_instance

/-- Writes the relational database accepts on the appointment table. Every
INSERT and UPDATE is checked against the `unique_together` constraint of
`Appointment.Meta`; a violating statement is rejected by the database, so it
produces no successor state. -/
inductive AppointmentDBStep : List Appointment → List Appointment → Prop where
  | insert (row : Appointment) (db : List Appointment)
      (hunique : ∀ a ∈ db, ¬ sameSlotKey a row) :
      AppointmentDBStep db (row :: db)
  | update (l₁ l₂ : List Appointment) (old new : Appointment)
      (hunique : ∀ a, (a ∈ l₁ ∨ a ∈ l₂) → ¬ sameSlotKey a new) :
      AppointmentDBStep (l₁ ++ old :: l₂) (l₁ ++ new :: l₂)
  | delete (l₁ l₂ : List Appointment) (old : Appointment) :
      AppointmentDBStep (l₁ ++ old :: l₂) (l₁ ++ l₂)

/-- A database state reachable from the empty appointment table through
constraint-respecting writes. -/
def AppointmentDBReachable (db : List Appointment) : Prop :=
  Relation.ReflTransGen AppointmentDBStep [] db

/-- The two past-date checks of `AppointmentForm.clean` (core/forms.py lines
139-152): an error list, one entry per `add_error` call. A missing field
skips its check exactly as in the source (`if appointment_date and ...`;
`appointment_date == timezone.now().date()` is false when the field is
`None`). -/
def appointmentFormClean : Option Nat → Option Nat → NowClock → List String
  | some dv, some tv, now =>
    (if dv < now.date then ["Appointment date cannot be in the past."] else []) ++
      (if dv == now.date && tv < now.time then
        ["Appointment time cannot be in the past for today's date."]
      else [])
  | some dv, none, now =>
    if dv < now.date then ["Appointment date cannot be in the past."] else []
  | none, _, _ => []

/-- `AppointmentForm.is_valid()` for a submission with both date and time
present: the `clean` checks above must add no error, `Appointment.clean`
(core/models.py lines 243-252, the same two checks re-run by
`_post_clean`) must pass, and `validate_unique` must find no existing row
with the same `('doctor', 'appointment_date', 'appointment_time')` key. -/
def appointmentFormValid (apps : List Appointment) (doctorId d t : Nat)
    (now : NowClock) : Bool :=
  decide (appointmentFormClean (some d) (some t) now = []) &&
    !(apps.any fun a =>
      a.doctor == doctorId && a.appointment_date == d && a.appointment_time == t)

/-- `Appointment.save` (core/models.py lines 234-241): assign an
appointment number of the form `APT-<date>-<uuid>` when the stored one is
empty, and default `end_time` to 30 minutes after `appointment_time`,
computed on `datetime.combine(appointment_date, appointment_time)` and
truncated back to a time of day (hence the modulus). `dateStr` stands for
`timezone.now().strftime('%Y%m%d')` and `uuidHex` for the fresh
`uuid.uuid4().hex[:6].upper()`. -/
def Appointment_save (a : Appointment) (dateStr uuidHex : String) : Appointment :=
  let a₁ :=
    if a.appointment_number = "" then
      { a with appointment_number := "APT-" ++ dateStr ++ "-" ++ uuidHex }
    else a
  if a₁.end_time = none then
    { a₁ with end_time := some ((a₁.appointment_time + 30) % 1440) }
  else a₁

/-- `book_appointment` (core/views.py lines 368-391) on a POST: run
`AppointmentForm.is_valid()`; on success build the appointment from the
form data, attach the patient and the URL doctor, and `save()` it into the
database; on failure re-render without writing (`none`). The hidden doctor
field of the form carries the URL doctor, as the view initialises it. -/
def book_appointment (apps : List Appointment) (doctorId doctorUser patientId patientUser : Nat)
    (d t : Nat) (reason : String) (now : NowClock) (freshId : Nat)
    (dateStr uuidHex : String) : Option (List Appointment) :=
  if appointmentFormValid apps doctorId d t now then
    let row : Appointment :=
      { id := freshId, patient := patientId, doctor := doctorId,
        patient_user := patientUser, doctor_user := doctorUser,
        appointment_number := "", appointment_date := d, appointment_time := t,
        end_time := none, reason := reason, status := Status.pending }
    some (Appointment_save row dateStr uuidHex :: apps)
  else
    none

/-- `DoctorAvailabilityForm.clean` (core/forms.py lines 293-301): with both
times present, a `ValidationError` is raised exactly when
`start_time >= end_time`. -/
def doctorAvailabilityFormCleanError (s e : Option Nat) : Bool :=
  match s, e with
  | some sv, some ev => ev ≤ sv
  | _, _ => false

/-- `Doctor.clean` (core/models.py lines 144-146): a `ValidationError` is
raised exactly when `available_from >= available_to`. -/
def doctorCleanError (d : Doctor) : Bool :=
  d.available_to ≤ d.available_from

/-- `Notification.NOTIFICATION_TYPES` from core/models.py. -/
inductive NotificationType where
  | appointment
  | prescription
  | payment
  | system
  | other
deriving DecidableEq, Repr

/-- Row of the `Notification` model with the `SoftDeleteMixin` columns
(core/models.py lines 332-378). `created_at` is `auto_now_add` and
`updated_at` is `auto_now`. -/
structure Notification where
  id : Nat
  recipient : Nat
  notification_type : NotificationType
  title : String
  message : String
  is_read : Bool
  related_object_id : Option Nat
  action_url : Option String
  is_deleted : Bool
  deleted_at : Option Nat
  created_at : Nat
  updated_at : Nat
deriving DecidableEq, Repr

/-- A `save()` on a notification row: the `auto_now` column `updated_at` is
refreshed to the current time; every other column is written back as held
on the instance. -/
def notificationSave (n : Notification) (now : Nat) : Notification :=
  { n with updated_at := now }

/-- `SoftDeleteMixin.delete` (core/models.py lines 339-342): set
`is_deleted`, record `deleted_at = timezone.now()`, and `save()` the row. -/
def SoftDeleteMixin_delete (n : Notification) (now : Nat) : Notification :=
  notificationSave { n with is_deleted := true, deleted_at := some now } now

/-- The ordering key of `notification_list`
(`order_by('is_read', '-created_at')`): unread first, then newest first. -/
def notificationBefore (a b : Notification) : Bool :=
  (!a.is_read && b.is_read) || (a.is_read == b.is_read && b.created_at ≤ a.created_at)

/-- `notification_list` (core/views.py lines 682-694): the requester's
non-deleted notifications, ordered by read flag then newest first. -/
def notification_list (db : List Notification) (userId : Nat) : List Notification :=
  sortBy notificationBefore (db.filter fun n => n.recipient == userId && !n.is_deleted)

/-- `notification_delete` (core/views.py lines 713-718): look up the row by
primary key restricted to the requester's own notifications and soft-delete
it; the saved instance replaces the stored row. -/
def notification_delete (db : List Notification) (userId pk now : Nat) :
    List Notification :=
  db.map fun n =>
    if n.id == pk && n.recipient == userId then SoftDeleteMixin_delete n now else n

/-- A user account as the permission helpers of core/views.py see it:
`role` is the `User.role` column, `is_superuser` the framework flag, and
`is_authenticated` the session flag. -/
structure UserRec where
  id : Nat
  is_authenticated : Bool
  is_superuser : Bool
  role : String
deriving DecidableEq, Repr

/-- `is_patient` (core/views.py line 60). -/
def is_patient (u : UserRec) : Bool := u.is_authenticated && u.role == "patient"

/-- `is_doctor` (core/views.py line 61). -/
def is_doctor (u : UserRec) : Bool := u.is_authenticated && u.role == "doctor"

/-- `is_admin` (core/views.py line 62). -/
def is_admin (u : UserRec) : Bool :=
  u.is_authenticated && (u.role == "admin" || u.is_superuser)

/-- Row of the `Review` model (core/models.py lines 307-326); columns not
touched by `appointment_detail` are elided. -/
structure Review where
  appointment : Nat
  rating : Nat
  comment : String
  is_anonymous : Bool
deriving DecidableEq, Repr

/-- POST body of `appointment_detail`: `submit_review` carries the review
form fields (rating, comment, is_anonymous) when that button was pressed,
`update_status` the chosen status string when the doctor submitted the
status form. -/
structure DetailPost where
  submit_review : Option (Nat × String × Bool)
  update_status : Option Status
deriving DecidableEq, Repr

/-- `Review.objects.update_or_create(appointment=appointment, defaults=...)`
(core/views.py lines 417-420): update the row for this appointment when one
exists, otherwise insert one. A `OneToOneField` keeps at most one row per
appointment, so updating the first match is exact. -/
def review_update_or_create (reviews : List Review) (apId rating : Nat)
    (comment : String) (anon : Bool) : List Review :=
  if reviews.any fun r => r.appointment == apId then
    reviews.map fun r =>
      if r.appointment == apId then
        { r with rating := rating, comment := comment, is_anonymous := anon }
      else r
  else
    { appointment := apId, rating := rating, comment := comment,
      is_anonymous := anon } :: reviews

/-- `ReviewForm.is_valid()`: the model's rating validators require a value
between 1 and 5. -/
def reviewFormValid (rating : Nat) : Bool := 1 ≤ rating && rating ≤ 5

/-- `appointment_detail` (core/views.py lines 397-454). Returns the HTTP
status (404 when no appointment has the primary key, 403 when the requester
is neither an admin nor the appointment's patient nor its doctor, 302 after
a successful POST write, 200 for a render) together with the resulting
appointment and review tables. -/
def appointment_detail (db : List Appointment) (reviews : List Review) (pk : Nat)
    (u : UserRec) (post : DetailPost) :
    Nat × List Appointment × List Review :=
  match db.find? fun a => a.id == pk with
  | none => (404, db, reviews)
  | some appointment =>
    if !(is_admin u ||
         (is_patient u && appointment.patient_user == u.id) ||
         (is_doctor u && appointment.doctor_user == u.id)) then
      (403, db, reviews)
    else
      match post.submit_review with
      | some (rating, comment, anon) =>
        if is_patient u then
          if appointment.status == Status.completed then
            if reviewFormValid rating then
              (302, db, review_update_or_create reviews appointment.id rating comment anon)
            else (200, db, reviews)
          else (200, db, reviews)
        else
          match post.update_status with
          | some s =>
            if is_doctor u then
              (302, db.map fun a => if a.id == pk then { a with status := s } else a, reviews)
            else (200, db, reviews)
          | none => (200, db, reviews)
      | none =>
        match post.update_status with
        | some s =>
          if is_doctor u then
            (302, db.map fun a => if a.id == pk then { a with status := s } else a, reviews)
          else (200, db, reviews)
        | none => (200, db, reviews)

/-- `create_appointment_notification` (core/signals.py lines 28-45): the
`post_save` hook on `Appointment`. When `created` is true it inserts one
notification of type `appointment` addressed to the appointment's doctor's
user; otherwise it does nothing. `now` stamps the auto timestamp columns
and `freshId` is the new primary key. -/
def create_appointment_notification (created : Bool) (ap : Appointment)
    (notifs : List Notification) (now freshId : Nat) : List Notification :=
  if created then
    { id := freshId, recipient := ap.doctor_user,
      notification_type := NotificationType.appointment,
      title := "New Appointment Booking",
      message := "Patient has booked a new appointment with you.",
      is_read := false, related_object_id := none,
      action_url := some ("/appointments/" ++ toString ap.id ++ "/"),
      is_deleted := false, deleted_at := none,
      created_at := now, updated_at := now } :: notifs
  else
    notifs

/-- `Payment.PAYMENT_STATUS_CHOICES` from core/models.py. -/
inductive PaymentStatus where
  | pending
  | completed
  | failed
  | refunded
  | partially_refunded
deriving DecidableEq, Repr

/-- Row of the `Payment` model (core/models.py lines 435-480) as the payment
signal reads it: the nullable appointment is carried as the joined row, so
`instance.appointment.doctor.user` and `instance.appointment.pk` are
available; columns the signal never touches are elided. -/
structure Payment where
  id : Nat
  appointment : Option Appointment
  patient : Nat
  amount : Nat
  payment_status : PaymentStatus
deriving DecidableEq, Repr

/-- The lookup key of the payment notification: recipient, type `payment`,
and `related_object_id` equal to the appointment's primary key
(core/signals.py lines 60-63). -/
def paymentNotifKey (recipient apPk : Nat) (n : Notification) : Bool :=
  n.recipient == recipient && n.notification_type == NotificationType.payment &&
    n.related_object_id == some apPk

/-- Apply `f` to the first element satisfying `p`, leaving the rest alone:
the update half of `Notification.objects.update_or_create`. -/
def updateFirstMatching (p : Notification → Bool) (f : Notification → Notification) :
    List Notification → List Notification
  | [] => []
  | n :: rest =>
    if p n then f n :: rest else n :: updateFirstMatching p f rest

/-- `create_payment_notification` (core/signals.py lines 48-69): the
`post_save` hook on `Payment`. When the payment status is `completed`, an
`update_or_create` keyed by (recipient, type `payment`,
`related_object_id` = appointment pk) refreshes the matching notification
or inserts one. The key columns are unique across these notifications, so
updating the first match is exact. A completed payment with no appointment
raises in the source (`instance.appointment` is `None`); that crash leaves
the table unchanged, which is how it is modelled. -/
def create_payment_notification (p : Payment) (notifs : List Notification)
    (now freshId : Nat) : List Notification :=
  if p.payment_status == PaymentStatus.completed then
    match p.appointment with
    | some ap =>
      let key := paymentNotifKey ap.doctor_user ap.id
      if notifs.any key then
        updateFirstMatching key
          (fun n => notificationSave
            { n with title := "Payment Received",
                     message := "Payment was successfully processed.",
                     action_url := some ("/appointments/" ++ toString ap.id ++ "/") }
            now)
          notifs
      else
        { id := freshId, recipient := ap.doctor_user,
          notification_type := NotificationType.payment,
          title := "Payment Received",
          message := "Payment was successfully processed.",
          is_read := false, related_object_id := some ap.id,
          action_url := some ("/appointments/" ++ toString ap.id ++ "/"),
          is_deleted := false, deleted_at := none,
          created_at := now, updated_at := now } :: notifs
    | none => notifs
  else
    notifs

/-- Overlap test of `manage_availability` (core/views.py lines 546-551): an
existing slot of the same doctor on the same weekday with
`start_time < new.end_time` and `end_time > new.start_time`. -/
def availabilityOverlaps (db : List DoctorAvailability) (doctorId : Nat)
    (na : DoctorAvailability) : Bool :=
  db.any fun ex =>
    ex.doctor == doctorId && ex.day_of_week == na.day_of_week &&
      ex.start_time < na.end_time && na.start_time < ex.end_time

/-- `DoctorAvailabilityForm.is_valid()` for a full submission: the day must
be one of the seven weekday choices and `clean` must not raise, i.e.
`start_time < end_time`. -/
def doctorAvailabilityFormValid (f : DoctorAvailability) : Bool :=
  f.day_of_week ≤ 6 &&
    !(doctorAvailabilityFormCleanError (some f.start_time) (some f.end_time))

/-- The POST branch of `manage_availability` (core/views.py lines 539-558):
validate the form, attach the logged-in doctor, reject the slot when it
overlaps an existing one of that doctor on that weekday, insert it
otherwise. An invalid form or an overlap leaves the table unchanged. -/
def manage_availability_post (db : List DoctorAvailability) (doctorId : Nat)
    (form : DoctorAvailability) : List DoctorAvailability :=
  if doctorAvailabilityFormValid form then
    let na := { form with doctor := doctorId }
    if availabilityOverlaps db doctorId na then db else na :: db
  else
    db

/-- Availability tables reachable from an empty one through the
add-availability operation alone. -/
inductive AvailReachable : List DoctorAvailability → Prop where
  | nil : AvailReachable []
  | add (db : List DoctorAvailability) (doctorId : Nat) (form : DoctorAvailability) :
      AvailReachable db → AvailReachable (manage_availability_post db doctorId form)

/-- Two availability rows of the same doctor on the same weekday whose time
intervals intersect, in the sense of the view's overlap test. -/
def availOverlap (a b : DoctorAvailability) : Prop :=
  a.doctor = b.doctor ∧ a.day_of_week = b.day_of_week ∧
    a.start_time < b.end_time ∧ b.start_time < a.end_time

/-!
Concrete fixture rows used by the witness theorems.
-/

/-- Fixture: an active doctor working 9:00 to 17:00. -/
def sampleDoctor : Doctor :=
  { id := 1, user := 10, is_active := true, available_from := 540, available_to := 1020 }

/-- Fixture: a Monday availability window 9:00 to 10:30 of `sampleDoctor`. -/
def sampleAvailability : DoctorAvailability :=
  { doctor := 1, day_of_week := 0, start_time := 540, end_time := 630,
    is_available := true, recurring := true, valid_from := 1, valid_to := none }

/-- Fixture: a pending appointment of `sampleDoctor` on date ordinal 8 (a
Monday) at 9:30. -/
def sampleAppointment : Appointment :=
  { id := 7, patient := 2, doctor := 1, patient_user := 20, doctor_user := 10,
    appointment_number := "A1", appointment_date := 8, appointment_time := 570,
    end_time := some 600, reason := "checkup", status := Status.pending }

/-- Fixture: an appointment row before `Appointment.save` fills the
defaulted columns. -/
def sampleUnsavedAppointment : Appointment :=
  { id := 8, patient := 2, doctor := 1, patient_user := 20, doctor_user := 10,
    appointment_number := "", appointment_date := 9, appointment_time := 1425,
    end_time := none, reason := "", status := Status.pending }

/-- Fixture: an unread, undeleted notification. -/
def sampleNotification : Notification :=
  { id := 3, recipient := 10, notification_type := NotificationType.system,
    title := "t", message := "m", is_read := false, related_object_id := none,
    action_url := none, is_deleted := false, deleted_at := none,
    created_at := 5, updated_at := 5 }

/-- Fixture: an authenticated patient account unrelated to
`sampleAppointment` (its patient user is 20, its doctor user 10). -/
def strangerUser : UserRec :=
  { id := 99, is_authenticated := true, is_superuser := false, role := "patient" }

/-- Fixture: a completed payment for `sampleAppointment`. -/
def samplePayment : Payment :=
  { id := 4, appointment := some sampleAppointment, patient := 2, amount := 50,
    payment_status := PaymentStatus.completed }

/-- Fixture: a Monday availability form submission 10:00 to 11:00, which
overlaps `sampleAvailability` (9:00 to 10:30). -/
def sampleOverlapForm : DoctorAvailability :=
  { doctor := 5, day_of_week := 0, start_time := 600, end_time := 660,
    is_available := true, recurring := true, valid_from := 1, valid_to := none }

/-!
Theorems. Helper lemmas first, then one theorem per claim (with a witness
where the claim theorem carries hypotheses).
-/

theorem mem_dedupFirst (seen l : List Nat) (t : Nat) :
    t ∈ dedupFirst seen l ↔ t ∈ l ∧ ¬ t ∈ seen := by
  induction l generalizing seen with
  | nil => simp [dedupFirst]
  | cons x xs ih =>
    by_cases hx : x ∈ seen
    · rw [dedupFirst, if_pos hx, ih]
      simp only [List.mem_cons]
      constructor
      · rintro ⟨h1, h2⟩; exact ⟨Or.inr h1, h2⟩
      · rintro ⟨h1 | h1, h2⟩
        · exact absurd (h1 ▸ hx) h2
        · exact ⟨h1, h2⟩
    · rw [dedupFirst, if_neg hx]
      simp only [List.mem_cons, ih, List.mem_cons]
      constructor
      · rintro (rfl | ⟨h1, h2⟩)
        · exact ⟨Or.inl rfl, hx⟩
        · exact ⟨Or.inr h1, fun hs => h2 (Or.inr hs)⟩
      · rintro ⟨rfl | h1, h2⟩
        · exact Or.inl rfl
        · by_cases ht : t = x
          · exact Or.inl ht
          · exact Or.inr ⟨h1, fun hs => (by rcases hs with h | h; exact ht h; exact h2 h : False)⟩

theorem mem_insertBy {α : Type} (le : α → α → Bool) (x a : α) (l : List α) :
    a ∈ insertBy le x l ↔ a = x ∨ a ∈ l := by
  induction l with
  | nil => simp [insertBy]
  | cons y ys ih =>
    by_cases h : le x y
    · simp [insertBy, h]
    · simp only [insertBy, h, if_neg, Bool.false_eq_true, not_false_iff, List.mem_cons, ih]
      tauto

theorem mem_sortBy {α : Type} (le : α → α → Bool) (a : α) (l : List α) :
    a ∈ sortBy le l ↔ a ∈ l := by
  induction l with
  | nil => simp [sortBy]
  | cons x xs ih => simp [sortBy, mem_insertBy, ih]

theorem mem_windowSlots (apps : List Appointment) (doctorId date : Nat) (now : NowClock)
    (cur endT t : Nat) :
    t ∈ windowSlots apps doctorId date now cur endT ↔
      (∃ k, t = cur + 30 * k) ∧ t < endT ∧
        ¬(date = now.date ∧ t < now.time) ∧ isBooked apps doctorId date t = false := by
  induction cur, endT using windowSlots.induct apps doctorId date now with
  | case1 cur endT h hskip ih =>
    rw [windowSlots, dif_pos h, if_pos hskip, ih]
    simp only [beq_iff_eq, Bool.and_eq_true, decide_eq_true_eq] at hskip
    constructor
    · rintro ⟨⟨k, rfl⟩, h1, h2, h3⟩
      exact ⟨⟨k + 1, by ring⟩, h1, h2, h3⟩
    · rintro ⟨⟨k, rfl⟩, h1, h2, h3⟩
      cases k with
      | zero => exact absurd ⟨hskip.1, by omega⟩ h2
      | succ k => exact ⟨⟨k, by ring⟩, h1, h2, h3⟩
  | case2 cur endT h hskip hbook ih =>
    rw [windowSlots, dif_pos h, if_neg hskip, if_pos hbook, ih]
    constructor
    · rintro ⟨⟨k, rfl⟩, h1, h2, h3⟩
      exact ⟨⟨k + 1, by ring⟩, h1, h2, h3⟩
    · rintro ⟨⟨k, rfl⟩, h1, h2, h3⟩
      cases k with
      | zero => simp_all
      | succ k => exact ⟨⟨k, by ring⟩, h1, h2, h3⟩
  | case3 cur endT h hskip hbook ih =>
    rw [windowSlots, dif_pos h, if_neg hskip, if_neg hbook]
    simp only [List.mem_cons]
    rw [ih]
    constructor
    · rintro (rfl | ⟨⟨k, rfl⟩, h1, h2, h3⟩)
      · refine ⟨⟨0, by ring⟩, h, ?_, by simpa using hbook⟩
        simp only [beq_iff_eq, Bool.and_eq_true, decide_eq_true_eq, not_and] at hskip ⊢
        exact hskip
      · exact ⟨⟨k + 1, by ring⟩, h1, h2, h3⟩
    · rintro ⟨⟨k, rfl⟩, h1, h2, h3⟩
      cases k with
      | zero => left; omega
      | succ k => right; exact ⟨⟨k, by ring⟩, h1, h2, h3⟩
  | case4 cur endT h =>
    rw [windowSlots, dif_neg h]
    simp only [List.not_mem_nil, false_iff]
    rintro ⟨⟨k, rfl⟩, h1, _⟩
    omega

theorem isBooked_eq_false_iff (apps : List Appointment) (doctorId date t : Nat) :
    isBooked apps doctorId date t = false ↔
      ¬ ∃ a ∈ apps, a.doctor = doctorId ∧ a.appointment_date = date ∧
        a.appointment_time = t ∧
        (a.status = Status.pending ∨ a.status = Status.confirmed ∨
          a.status = Status.rescheduled) := by
  rw [← Bool.not_eq_true, isBooked, List.any_eq_true]
  simp only [Bool.and_eq_true, Bool.or_eq_true, beq_iff_eq]
  constructor
  · rintro h ⟨a, ha, h1, h2, h3, h4⟩
    exact h ⟨a, ha, ⟨⟨h1, h2⟩, h3⟩, by tauto⟩
  · rintro h ⟨a, ha, ⟨⟨h1, h2⟩, h3⟩, h4⟩
    exact h ⟨a, ha, h1, h2, h3, by tauto⟩

theorem mem_computeSlots (avs : List DoctorAvailability) (apps : List Appointment)
    (doctorId date : Nat) (now : NowClock) (t : Nat) :
    t ∈ computeSlots avs apps doctorId date now ↔
      (∃ av ∈ avs, availabilityQualifies doctorId date av = true ∧
        ∃ k, t = av.start_time + 30 * k ∧ t < av.end_time) ∧
        ¬(date = now.date ∧ t < now.time) ∧
        isBooked apps doctorId date t = false := by
  rw [computeSlots]
  simp only [mem_sortBy, mem_dedupFirst, List.not_mem_nil, not_false_iff, and_true,
    List.mem_flatMap, List.mem_filter]
  constructor
  · rintro ⟨av, ⟨hav, hq⟩, hmem⟩
    rw [mem_windowSlots] at hmem
    obtain ⟨⟨k, rfl⟩, hend, hpast, hfree⟩ := hmem
    exact ⟨⟨av, hav, hq, k, rfl, hend⟩, hpast, hfree⟩
  · rintro ⟨⟨av, hav, hq, k, rfl, hend⟩, hpast, hfree⟩
    refine ⟨av, ⟨hav, hq⟩, ?_⟩
    rw [mem_windowSlots]
    exact ⟨⟨k, rfl⟩, hend, hpast, hfree⟩

/-- Claim C1: for an active doctor and a well-formed date, the
available-time-slots endpoint returns exactly the 30-minute step points of
the doctor's availability windows for that date's weekday (windows marked
available and valid on the date), excluding slots booked by an appointment
of that doctor in status pending, confirmed or rescheduled, and, when the
date is today, excluding slots before the current time. -/
theorem available_slots_exact (doctors : List Doctor) (avs : List DoctorAvailability)
    (apps : List Appointment) (did date : Nat) (now : NowClock) (doctor : Doctor)
    (slots : List Nat)
    (hdoc : findActiveDoctor doctors did = some doctor)
    (hres : get_available_time_slots doctors avs apps (some did) (some date) now =
      SlotsResponse.ok slots) :
    ∀ t, t ∈ slots ↔
      (∃ av ∈ avs, availabilityQualifies doctor.id date av = true ∧
        ∃ k, t = av.start_time + 30 * k ∧ t < av.end_time) ∧
      (¬ ∃ a ∈ apps, a.doctor = doctor.id ∧ a.appointment_date = date ∧
        a.appointment_time = t ∧
        (a.status = Status.pending ∨ a.status = Status.confirmed ∨
          a.status = Status.rescheduled)) ∧
      (date = now.date → now.time ≤ t) := by
  intro t
  rw [get_available_time_slots] at hres
  rw [hdoc] at hres
  injection hres with hres
  subst hres
  rw [mem_computeSlots, isBooked_eq_false_iff]
  constructor
  · rintro ⟨h1, h2, h3⟩
    exact ⟨h1, h3, fun hd => by by_contra hlt; exact h2 ⟨hd, by omega⟩⟩
  · rintro ⟨h1, h2, h3⟩
    exact ⟨h1, fun ⟨hd, hlt⟩ => absurd (h3 hd) (by omega), h2⟩

/-- Witness for the claim C1 theorem: a doctor available Mondays 9:00-10:30,
with 9:30 booked, queried on a Monday at 9:10; the endpoint returns exactly
the slots 9:40-free step points, and the characterization holds at 10:00. -/
theorem available_slots_exact_witness :
    (∃ av ∈ [sampleAvailability],
      availabilityQualifies 1 8 av = true ∧
        ∃ k, 600 = av.start_time + 30 * k ∧ 600 < av.end_time) ∧
    (¬ ∃ a ∈ [sampleAppointment],
      a.doctor = 1 ∧ a.appointment_date = 8 ∧ a.appointment_time = 600 ∧
        (a.status = Status.pending ∨ a.status = Status.confirmed ∨
          a.status = Status.rescheduled)) ∧
    ((8 : Nat) = (8 : Nat) → (550 : Nat) ≤ 600) :=
  (available_slots_exact [sampleDoctor] [sampleAvailability] [sampleAppointment]
    1 8 ⟨8, 550⟩ sampleDoctor [600]
    (by decide)
    (by
      have hcs : computeSlots [sampleAvailability] [sampleAppointment] 1 8 ⟨8, 550⟩ = [600] := by
        rw [computeSlots]
        rw [show ([sampleAvailability].filter (availabilityQualifies 1 8)) =
          [sampleAvailability] from by decide]
        rw [show ([sampleAvailability].flatMap fun av =>
            windowSlots [sampleAppointment] 1 8 ⟨8, 550⟩ av.start_time av.end_time) = [600] from by
          simp only [sampleAvailability, List.flatMap_cons, List.flatMap_nil]
          simp [windowSlots, isBooked, sampleAppointment]]
        decide
      simp [get_available_time_slots, findActiveDoctor, sampleDoctor, hcs])
    600).mp (by simp)

theorem sameSlotKey_symm (a b : Appointment) (h : sameSlotKey a b) : sameSlotKey b a := by
  obtain ⟨h1, h2, h3⟩ := h
  exact ⟨h1.symm, h2.symm, h3.symm⟩

theorem step_preserves_unique (db db' : List Appointment)
    (hstep : AppointmentDBStep db db')
    (hp : db.Pairwise fun a b => ¬ sameSlotKey a b) :
    db'.Pairwise fun a b => ¬ sameSlotKey a b := by
  cases hstep with
  | insert row db hunique =>
    rw [List.pairwise_cons]
    exact ⟨fun a ha hk => hunique a ha (sameSlotKey_symm _ _ hk), hp⟩
  | update l₁ l₂ old new hunique =>
    rw [List.pairwise_append] at hp ⊢
    obtain ⟨hp1, hp2, hcross⟩ := hp
    rw [List.pairwise_cons] at hp2 ⊢
    obtain ⟨hold, hp2'⟩ := hp2
    refine ⟨hp1, ⟨fun b hb hk => hunique b (Or.inr hb) (sameSlotKey_symm _ _ hk), hp2'⟩, ?_⟩
    rintro a ha b hb
    rcases List.mem_cons.mp hb with rfl | hb'
    · exact fun hk => hunique a (Or.inl ha) hk
    · exact hcross a ha b (List.mem_cons_of_mem _ hb')
  | delete l₁ l₂ old =>
    refine hp.sublist ?_
    exact List.Sublist.append_left (List.sublist_cons_self old l₂) l₁

/-- Claim C2: in every database state reachable through
constraint-respecting writes, no two appointment rows share the same
doctor, appointment date and appointment time, regardless of status. -/
theorem appointment_unique_together (db : List Appointment)
    (h : AppointmentDBReachable db) :
    db.Pairwise fun a b => ¬ sameSlotKey a b := by
  induction h with
  | refl => simp
  | tail _ hstep ih => exact step_preserves_unique _ _ hstep ih

/-- Witness for the claim C2 theorem: the singleton table obtained by one
insert is reachable and satisfies the uniqueness invariant. -/
theorem appointment_unique_together_witness :
    AppointmentDBReachable [sampleAppointment] ∧
      List.Pairwise (fun a b => ¬ sameSlotKey a b) [sampleAppointment] := by
  have h : AppointmentDBReachable [sampleAppointment] :=
    Relation.ReflTransGen.single
      (AppointmentDBStep.insert sampleAppointment [] (by simp))
  exact ⟨h, appointment_unique_together _ h⟩

/-- Claim C3: booking a slot for which an appointment with the same doctor,
date and time already exists fails: the form does not validate and no
appointment row is created (the operation returns no new table). -/
theorem booking_conflict_rejected (apps : List Appointment)
    (doctorId doctorUser patientId patientUser d t : Nat) (reason : String)
    (now : NowClock) (freshId : Nat) (dateStr uuidHex : String)
    (hconflict : ∃ a ∈ apps, a.doctor = doctorId ∧ a.appointment_date = d ∧
      a.appointment_time = t) :
    book_appointment apps doctorId doctorUser patientId patientUser d t reason now
      freshId dateStr uuidHex = none := by
  have hany : (apps.any fun a =>
      a.doctor == doctorId && a.appointment_date == d && a.appointment_time == t) = true := by
    rw [List.any_eq_true]
    obtain ⟨a, ha, h1, h2, h3⟩ := hconflict
    exact ⟨a, ha, by simp [h1, h2, h3]⟩
  have hvalid : appointmentFormValid apps doctorId d t now = false := by
    rw [appointmentFormValid, hany]
    simp
  rw [book_appointment, hvalid]
  simp

/-- Witness for the claim C3 theorem: re-booking the already-taken Monday
9:30 slot of `sampleAppointment` with the same doctor is refused. -/
theorem booking_conflict_rejected_witness :
    (∃ a ∈ [sampleAppointment], a.doctor = 1 ∧ a.appointment_date = 8 ∧
      a.appointment_time = 570) ∧
    book_appointment [sampleAppointment] 1 10 3 30 8 570 "again" ⟨8, 540⟩ 9
      "20240101" "FF00AA" = none := by
  refine ⟨⟨sampleAppointment, by simp, by simp [sampleAppointment]⟩, ?_⟩
  exact booking_conflict_rejected [sampleAppointment] 1 10 3 30 8 570 "again"
    ⟨8, 540⟩ 9 "20240101" "FF00AA"
    ⟨sampleAppointment, by simp, by simp [sampleAppointment]⟩

/-- Claim C4: with both fields present, the appointment form's validation
adds an error exactly when the date is before today or the date is today
and the time is before the current time; and whenever that holds the
booking operation creates no appointment. A future date and time is not
rejected on this ground. -/
theorem past_booking_rejected (d t : Nat) (now : NowClock) :
    (appointmentFormClean (some d) (some t) now ≠ [] ↔
      d < now.date ∨ (d = now.date ∧ t < now.time)) ∧
    ∀ (apps : List Appointment) (doctorId doctorUser patientId patientUser freshId : Nat)
      (reason dateStr uuidHex : String),
      d < now.date ∨ (d = now.date ∧ t < now.time) →
      book_appointment apps doctorId doctorUser patientId patientUser d t reason now
        freshId dateStr uuidHex = none := by
  have hiff : appointmentFormClean (some d) (some t) now ≠ [] ↔
      d < now.date ∨ (d = now.date ∧ t < now.time) := by
    rw [appointmentFormClean]
    by_cases h1 : d < now.date <;> by_cases h2 : d = now.date <;>
      by_cases h3 : t < now.time <;> simp [h1, h2, h3]
  refine ⟨hiff, ?_⟩
  intro apps doctorId doctorUser patientId patientUser freshId reason dateStr uuidHex hpast
  have hclean : ¬ appointmentFormClean (some d) (some t) now = [] := hiff.mpr hpast
  have hvalid : appointmentFormValid apps doctorId d t now = false := by
    rw [appointmentFormValid]
    simp [hclean]
  rw [book_appointment, hvalid]
  simp

/-- Witness for the claim C4 theorem: booking yesterday's date (ordinal 7,
today being ordinal 8) is refused without touching the table. -/
theorem past_booking_rejected_witness :
    book_appointment [] 1 10 2 20 7 600 "late" ⟨8, 550⟩ 9 "20240101" "AB12CD" =
      none :=
  (past_booking_rejected 7 600 ⟨8, 550⟩).2 [] 1 10 2 20 9 "late" "20240101" "AB12CD"
    (Or.inl (by decide))

/-- Claim C5: the doctor-availability form raises a validation error if and
only if the start time is not before the end time, and `Doctor.clean`
applies the same check to a doctor's available_from/available_to working
hours. -/
theorem availability_start_before_end (s e : Nat) (d : Doctor) :
    (doctorAvailabilityFormCleanError (some s) (some e) = true ↔ ¬ s < e) ∧
    (doctorCleanError d = true ↔ ¬ d.available_from < d.available_to) := by
  constructor
  · rw [doctorAvailabilityFormCleanError]
    simp only [decide_eq_true_eq]
    omega
  · rw [doctorCleanError]
    simp only [decide_eq_true_eq]
    omega

/-- Claim C9: `Appointment.save` fills a missing `end_time` with the time
30 minutes after `appointment_time` on the combined date-time (wrapping
past midnight), assigns an appointment number when the stored one is
empty, and never overwrites either field when it is already set. -/
theorem appointment_save_defaults (a : Appointment) (dateStr uuidHex : String) :
    (a.end_time = none →
      (Appointment_save a dateStr uuidHex).end_time =
        some ((a.appointment_time + 30) % 1440)) ∧
    (∀ e, a.end_time = some e →
      (Appointment_save a dateStr uuidHex).end_time = some e) ∧
    (a.appointment_number = "" →
      (Appointment_save a dateStr uuidHex).appointment_number =
        "APT-" ++ dateStr ++ "-" ++ uuidHex) ∧
    (a.appointment_number ≠ "" →
      (Appointment_save a dateStr uuidHex).appointment_number =
        a.appointment_number) := by
  refine ⟨?_, ?_, ?_, ?_⟩
  · intro he
    rw [Appointment_save]
    by_cases hn : a.appointment_number = "" <;> simp [hn, he]
  · intro e hee
    rw [Appointment_save]
    by_cases hn : a.appointment_number = "" <;> simp [hn, hee]
  · intro hn
    rw [Appointment_save]
    by_cases he : a.end_time = none <;> simp [hn, he]
  · intro hn
    rw [Appointment_save]
    by_cases he : a.end_time = none <;> simp [hn, he]

/-- Witness for the claim C9 theorem: saving an appointment at 23:45 with no
end time and no number sets the end time to 00:15 of the next day and an
APT-prefixed number. -/
theorem appointment_save_defaults_witness :
    (Appointment_save sampleUnsavedAppointment "20240101" "AB12CD").end_time =
        some 15 ∧
      (Appointment_save sampleUnsavedAppointment "20240101" "AB12CD").appointment_number =
        "APT-20240101-AB12CD" :=
  ⟨(appointment_save_defaults sampleUnsavedAppointment "20240101" "AB12CD").1 rfl,
    (appointment_save_defaults sampleUnsavedAppointment "20240101" "AB12CD").2.2.1 rfl⟩

/-- Counterexample to claim C6 as stated: `SoftDeleteMixin.delete` calls
`self.save()`, and `Notification.updated_at` is an `auto_now` column, so the
delete does change a timestamp field of the row: on `sampleNotification`
(updated_at 5) deleting at time 10 rewrites updated_at to 10. -/
theorem notification_soft_delete_changes_updated_at :
    ¬ (SoftDeleteMixin_delete sampleNotification 10).updated_at =
      sampleNotification.updated_at := by
  decide

/-- Claim C6 (amended): deleting a notification is a soft delete: it sets
`is_deleted`, records `deleted_at`, and leaves the row's recipient, type,
title, message, read flag and `created_at` unchanged, while the `auto_now`
column `updated_at` is refreshed to the save time; notification listings
for a user contain exactly the user's rows with `is_deleted` false. -/
theorem notification_soft_delete (n : Notification) (nowTs : Nat) :
    (SoftDeleteMixin_delete n nowTs).is_deleted = true ∧
    (SoftDeleteMixin_delete n nowTs).deleted_at = some nowTs ∧
    (SoftDeleteMixin_delete n nowTs).recipient = n.recipient ∧
    (SoftDeleteMixin_delete n nowTs).notification_type = n.notification_type ∧
    (SoftDeleteMixin_delete n nowTs).title = n.title ∧
    (SoftDeleteMixin_delete n nowTs).message = n.message ∧
    (SoftDeleteMixin_delete n nowTs).is_read = n.is_read ∧
    (SoftDeleteMixin_delete n nowTs).created_at = n.created_at ∧
    (SoftDeleteMixin_delete n nowTs).updated_at = nowTs ∧
    ∀ (db : List Notification) (userId : Nat) (m : Notification),
      m ∈ notification_list db userId ↔
        m ∈ db ∧ m.recipient = userId ∧ m.is_deleted = false := by
  refine ⟨rfl, rfl, rfl, rfl, rfl, rfl, rfl, rfl, rfl, ?_⟩
  intro db userId m
  rw [notification_list, mem_sortBy, List.mem_filter]
  simp [Bool.and_eq_true, beq_iff_eq, Bool.not_eq_true', and_assoc]

/-- Claim C7: the appointment detail view returns HTTP 404 when no
appointment has the requested primary key, and HTTP 403 with both tables
untouched when the requester is neither an admin nor the appointment's
patient nor its doctor. -/
theorem appointment_detail_permissions :
    (∀ (db : List Appointment) (reviews : List Review) (pk : Nat) (u : UserRec)
      (post : DetailPost),
      (∀ a ∈ db, a.id ≠ pk) →
      appointment_detail db reviews pk u post = (404, db, reviews)) ∧
    (∀ (db : List Appointment) (reviews : List Review) (pk : Nat) (u : UserRec)
      (post : DetailPost) (ap : Appointment),
      db.find? (fun a => a.id == pk) = some ap →
      is_admin u = false →
      ¬(is_patient u = true ∧ ap.patient_user = u.id) →
      ¬(is_doctor u = true ∧ ap.doctor_user = u.id) →
      appointment_detail db reviews pk u post = (403, db, reviews)) := by
  constructor
  · intro db reviews pk u post hnone
    have hfind : db.find? (fun a => a.id == pk) = none := by
      rw [List.find?_eq_none]
      intro a ha
      simp only [beq_iff_eq]
      exact fun h => hnone a ha h
    rw [appointment_detail, hfind]
  · intro db reviews pk u post ap hfind hadmin hpat hdoc
    have h1 : (is_patient u && ap.patient_user == u.id) = false := by
      cases hp : is_patient u
      · simp
      · simp only [Bool.true_and]
        exact beq_eq_false_iff_ne.mpr fun h => hpat ⟨hp, h⟩
    have h2 : (is_doctor u && ap.doctor_user == u.id) = false := by
      cases hd : is_doctor u
      · simp
      · simp only [Bool.true_and]
        exact beq_eq_false_iff_ne.mpr fun h => hdoc ⟨hd, h⟩
    simp [appointment_detail, hfind, hadmin, h1, h2]

/-- Witness for the claim C7 theorem: an authenticated patient account
(id 99) unrelated to `sampleAppointment` (patient user 20, doctor user 10)
receives HTTP 403 and both tables come back unchanged; the 404 branch fires
on an absent primary key. -/
theorem appointment_detail_permissions_witness :
    appointment_detail [sampleAppointment] [] 7 strangerUser ⟨none, none⟩ =
        (403, [sampleAppointment], []) ∧
      appointment_detail [sampleAppointment] [] 1000 strangerUser ⟨none, none⟩ =
        (404, [sampleAppointment], []) := by
  constructor
  · exact appointment_detail_permissions.2 [sampleAppointment] [] 7 strangerUser
      ⟨none, none⟩ sampleAppointment (by decide) (by decide)
      (by rintro ⟨_, h⟩; revert h; decide)
      (by rintro ⟨h, _⟩; revert h; decide)
  · exact appointment_detail_permissions.1 [sampleAppointment] [] 1000 strangerUser
      ⟨none, none⟩ (by decide)

theorem countP_updateFirstMatching (p : Notification → Bool)
    (f : Notification → Notification) (hf : ∀ n, p n = true → p (f n) = true)
    (l : List Notification) :
    (updateFirstMatching p f l).countP p = l.countP p := by
  induction l with
  | nil => rfl
  | cons n rest ih =>
    rw [updateFirstMatching]
    by_cases h : p n = true
    · rw [if_pos h]
      simp [List.countP_cons, h, hf n h]
    · rw [if_neg h]
      simp [List.countP_cons, h, ih]

theorem any_iff_countP_pos (key : Notification → Bool) (l : List Notification) :
    l.any key = true ↔ 0 < l.countP key := by
  rw [List.any_eq_true, List.countP_pos_iff]

theorem countP_create_payment (p : Payment) (ap : Appointment)
    (notifs : List Notification) (nw fi : Nat)
    (hstat : p.payment_status = PaymentStatus.completed)
    (hap : p.appointment = some ap) :
    (create_payment_notification p notifs nw fi).countP
        (paymentNotifKey ap.doctor_user ap.id) =
      if notifs.any (paymentNotifKey ap.doctor_user ap.id) then
        notifs.countP (paymentNotifKey ap.doctor_user ap.id)
      else
        notifs.countP (paymentNotifKey ap.doctor_user ap.id) + 1 := by
  rw [create_payment_notification, hstat, hap]
  simp only [beq_self_eq_true, if_true]
  by_cases hany : notifs.any (paymentNotifKey ap.doctor_user ap.id) = true
  · rw [if_pos hany, if_pos hany]
    apply countP_updateFirstMatching
    intro n hn
    simpa [paymentNotifKey, notificationSave] using hn
  · rw [if_neg hany, if_neg hany]
    rw [List.countP_cons]
    simp [paymentNotifKey]

theorem any_create_payment (p : Payment) (ap : Appointment)
    (notifs : List Notification) (nw fi : Nat)
    (hstat : p.payment_status = PaymentStatus.completed)
    (hap : p.appointment = some ap) :
    (create_payment_notification p notifs nw fi).any
      (paymentNotifKey ap.doctor_user ap.id) = true := by
  rw [any_iff_countP_pos, countP_create_payment p ap notifs nw fi hstat hap]
  by_cases hany : notifs.any (paymentNotifKey ap.doctor_user ap.id) = true
  · rw [if_pos hany]
    exact (any_iff_countP_pos _ _).mp hany
  · rw [if_neg hany]
    omega

/-- Claim C8: creating an appointment synchronously inserts exactly one
notification of type appointment for the appointment's doctor's user, and a
non-create save of the same row inserts none; saving a payment with status
completed leaves a payment-type notification for the doctor's user keyed by
the appointment's primary key, and a repeated save adds no duplicate. -/
theorem notification_signals :
    (∀ (ap : Appointment) (notifs : List Notification) (nowTs freshId : Nat),
      (∃ n, create_appointment_notification true ap notifs nowTs freshId = n :: notifs ∧
        n.notification_type = NotificationType.appointment ∧
        n.recipient = ap.doctor_user) ∧
      create_appointment_notification false ap notifs nowTs freshId = notifs) ∧
    (∀ (p : Payment) (ap : Appointment) (notifs : List Notification)
      (n1 f1 n2 f2 : Nat),
      p.payment_status = PaymentStatus.completed →
      p.appointment = some ap →
      (∃ n ∈ create_payment_notification p notifs n1 f1,
        paymentNotifKey ap.doctor_user ap.id n = true) ∧
      (create_payment_notification p
          (create_payment_notification p notifs n1 f1) n2 f2).countP
          (paymentNotifKey ap.doctor_user ap.id) =
        (create_payment_notification p notifs n1 f1).countP
          (paymentNotifKey ap.doctor_user ap.id)) := by
  constructor
  · intro ap notifs nowTs freshId
    exact ⟨⟨_, rfl, rfl, rfl⟩, rfl⟩
  · intro p ap notifs n1 f1 n2 f2 hstat hap
    have hany1 := any_create_payment p ap notifs n1 f1 hstat hap
    constructor
    · exact List.any_eq_true.mp hany1
    · rw [countP_create_payment p ap _ n2 f2 hstat hap, if_pos hany1]

/-- Witness for the claim C8 theorem: `samplePayment` (completed, for
`sampleAppointment`) run through the payment hook on an empty table leaves
a matching payment notification, and a second save keeps the match count
unchanged. -/
theorem notification_signals_witness :
    (∃ n ∈ create_payment_notification samplePayment [] 11 5,
      paymentNotifKey sampleAppointment.doctor_user sampleAppointment.id n = true) ∧
    (create_payment_notification samplePayment
        (create_payment_notification samplePayment [] 11 5) 12 6).countP
        (paymentNotifKey sampleAppointment.doctor_user sampleAppointment.id) =
      (create_payment_notification samplePayment [] 11 5).countP
        (paymentNotifKey sampleAppointment.doctor_user sampleAppointment.id) :=
  notification_signals.2 samplePayment sampleAppointment [] 11 5 12 6 rfl rfl

/-- Claim C10: adding an availability slot is rejected (the table is
returned unchanged) whenever an existing slot of the same doctor on the
same weekday satisfies `existing.start_time < new.end_time` and
`existing.end_time > new.start_time`; consequently every table reachable
through this operation keeps any one doctor's slots on any one weekday
pairwise non-overlapping. -/
theorem availability_no_overlap :
    (∀ (db : List DoctorAvailability) (doctorId : Nat) (form : DoctorAvailability),
      (∃ ex ∈ db, ex.doctor = doctorId ∧ ex.day_of_week = form.day_of_week ∧
        ex.start_time < form.end_time ∧ form.start_time < ex.end_time) →
      manage_availability_post db doctorId form = db) ∧
    (∀ db, AvailReachable db → db.Pairwise fun a b => ¬ availOverlap a b) := by
  constructor
  · rintro db doctorId form ⟨ex, hex, h1, h2, h3, h4⟩
    rw [manage_availability_post]
    by_cases hv : doctorAvailabilityFormValid form = true
    · rw [if_pos hv]
      have hov : availabilityOverlaps db doctorId
          { form with doctor := doctorId } = true := by
        rw [availabilityOverlaps, List.any_eq_true]
        exact ⟨ex, hex, by simp [h1, h2, h3, h4]⟩
      rw [if_pos hov]
    · rw [if_neg hv]
  · intro db h
    induction h with
    | nil => simp
    | add db doctorId form hdb ih =>
      rw [manage_availability_post]
      by_cases hv : doctorAvailabilityFormValid form = true
      · rw [if_pos hv]
        by_cases hov : availabilityOverlaps db doctorId
            { form with doctor := doctorId } = true
        · rw [if_pos hov]
          exact ih
        · rw [if_neg hov]
          rw [List.pairwise_cons]
          refine ⟨?_, ih⟩
          intro b hb hcontra
          obtain ⟨k1, k2, k3, k4⟩ := hcontra
          apply hov
          rw [availabilityOverlaps, List.any_eq_true]
          refine ⟨b, hb, ?_⟩
          simp only [Bool.and_eq_true, beq_iff_eq, decide_eq_true_eq]
          exact ⟨⟨⟨k1.symm, k2.symm⟩, k4⟩, k3⟩
      · rw [if_neg hv]
        exact ih

/-- Witness for the claim C10 theorem: adding the overlapping form
`sampleOverlapForm` to a table holding `sampleAvailability` is refused, and
the reachable table `[sampleAvailability]` is pairwise non-overlapping. -/
theorem availability_no_overlap_witness :
    manage_availability_post [sampleAvailability] 1 sampleOverlapForm =
        [sampleAvailability] ∧
      List.Pairwise (fun a b => ¬ availOverlap a b) [sampleAvailability] := by
  constructor
  · exact availability_no_overlap.1 [sampleAvailability] 1 sampleOverlapForm
      ⟨sampleAvailability, by simp, by decide⟩
  · have h : AvailReachable [sampleAvailability] := by
      have hadd := AvailReachable.add [] 1 sampleAvailability AvailReachable.nil
      rwa [show manage_availability_post [] 1 sampleAvailability =
        [sampleAvailability] from by decide] at hadd
    exact availability_no_overlap.2 [sampleAvailability] h

end Healthcare
